import Mathlib

/-!
Shallow embedding of the PDF token/object reader of `lex.go` (package pdf).

Bytes are modelled as `Nat` (values < 256 in practice), Go `int64` as `Int`
with explicit clamping where the source clamps, Go `string`/`[]byte` payloads
as `List Nat` (byte lists; for the ASCII literals appearing in the source,
`strB` gives exactly their UTF-8 bytes).

The Go `buffer` refills `buf` in chunks of up to 4096 bytes from an
`io.Reader` and computes `readOffset = offset - len(buf) + pos`.  The
embedding collapses `r`/`buf`/`offset`/`pos` into the full input `data` with
an absolute cursor `pos`, which is exact for a buffer created at offset 0
whose reader delivers the whole (≤ 4096 byte) input in one `reload`; then
`readOffset = pos`, and the only read error the underlying reader can
produce is `io.EOF`.

All loops and the mutual recursion `readObject`/`readArray`/`readDict` are
given an explicit fuel argument (`none` = fuel exhausted), because the
source recursion is not structural — indeed `readArray` fails to terminate
on some inputs (see the C8 theorem below).
-/

namespace PdfLex

/-- Bytes of an ASCII string literal (used for the keyword/message literals of
the source; for ASCII these are exactly the Go string's bytes). -/
def strB (s : String) : List Nat := s.data.map Char.toNat

/-- The only `error` value created in `lex.go` itself:
`errors.New(b.errorf("unexpected keyword %q parsing object", kw))`
(readObject, line 488).  It carries the offending keyword's bytes. -/
inductive GoError where
  | unexpectedKeyword (kw : List Nat)
deriving DecidableEq

/-- `objptr` (lex.go:467-470): `id uint32`, `gen uint16`. -/
structure Objptr where
  id : Nat
  gen : Nat
deriving DecidableEq

/-- Go `token`/`object` interface values (lex.go:16-33, 441-475).  Both are
`interface{}`; every token is also an object, so one inductive models both.
`real` keeps the decimal text (float64 parsing is out of scope: no claim
touches reals and floating point is not modelled).  `eofTok` is the `io.EOF`
error value, which the tokenizer returns *as a token* on read errors;
`errVal` is a `GoError` returned *as an object* (readArray, line 540).
`null` is the Go `nil` interface value (PDF null, and the `tok == nil`
comparisons). -/
inductive Obj where
  | null
  | bool (b : Bool)
  | int (i : Int)
  | real (s : List Nat)
  | str (s : List Nat)
  | name (n : List Nat)
  | kw (s : List Nat)
  | arr (xs : List Obj)
  | dict (xs : List (List Nat × Obj))
  | stream (hdr : List (List Nat × Obj)) (ptr : Objptr) (off : Nat)
  | objptr (p : Objptr)
  | objdef (p : Objptr) (v : Obj)
  | eofTok
  | errVal (e : GoError)

/-- The `buffer` struct (lex.go:36-50), with `r`/`buf`/`offset`/`pos`
collapsed into `data`/`pos` as described in the file header.  The Go token
pushback stack appends to the *end* of `unread` and pops from the end
(lex.go:141-150); here the head of `unread` is the top of the stack, the
same LIFO discipline. -/
structure Buf where
  data : List Nat
  pos : Nat
  unread : List Obj
  allowEOF : Bool
  allowObjptr : Bool
  allowStream : Bool
  eof : Bool
  key : Option (List Nat)
  useAES : Bool
  objptr : Objptr

/-- `newBuffer` (lex.go:53-61) at offset 0: `allowObjptr` and `allowStream`
start true, everything else zero. -/
def newBufferM (data : List Nat) : Buf :=
  { data := data, pos := 0, unread := [], allowEOF := false,
    allowObjptr := true, allowStream := true, eof := false,
    key := none, useAES := false, objptr := ⟨0, 0⟩ }

/-- Fresh buffer over the bytes of an ASCII string. -/
def mkBuf (s : String) : Buf := newBufferM (strB s)

/-- Fresh buffer with `allowEOF` set. -/
def mkBufEOF (s : String) : Buf := { mkBuf s with allowEOF := true }

/-- `readByte` (lex.go:70-86): within the input, return the byte and advance;
at end of input `reload` fails with `io.EOF` (setting `eof` when `allowEOF`;
lex.go:100-109) and `readByte` returns the pair `('\n', io.EOF)` — the
`Bool` component is "error (io.EOF) present". -/
def readByte (b : Buf) : Nat × Bool × Buf :=
  if b.pos < b.data.length then
    (b.data.getD b.pos 0, false, { b with pos := b.pos + 1 })
  else
    (10, true, if b.allowEOF then { b with eof := true } else b)

/-- `readOffset` (lex.go:131-133): `offset - len(buf) + pos`, which is the
absolute position `pos` in this embedding. -/
def readOffset (b : Buf) : Nat := b.pos

/-- `unreadByte` (lex.go:135-139). -/
def unreadByte (b : Buf) : Buf :=
  if 0 < b.pos then { b with pos := b.pos - 1 } else b

/-- `unreadToken` (lex.go:141-143): push onto the LIFO pushback stack. -/
def unreadTok (t : Obj) (b : Buf) : Buf := { b with unread := t :: b.unread }

/-- `isSpace` (lex.go:603-609). -/
def isSpace (c : Nat) : Bool :=
  c = 0 || c = 9 || c = 10 || c = 12 || c = 13 || c = 32

/-- `isDelim` (lex.go:611-617). -/
def isDelim (c : Nat) : Bool :=
  c = 60 || c = 62 || c = 40 || c = 41 || c = 91 || c = 93 ||
  c = 123 || c = 125 || c = 47 || c = 37

/-- `unhex` (lex.go:253-263). -/
def unhex (c : Nat) : Int :=
  if 48 ≤ c ∧ c ≤ 57 then (c : Int) - 48
  else if 97 ≤ c ∧ c ≤ 102 then (c : Int) - 97 + 10
  else if 65 ≤ c ∧ c ≤ 70 then (c : Int) - 65 + 10
  else -1

/-- `unhex(c)<<4 | unhex(c2)` on Go `int`s (lex.go:242, 357).  `unhex`
returns `-1` or a value in `[0,15]`, so the two's-complement shift-and-or is
given by this case analysis: `x | -1 = -1`; `-16 | y = -16 + y` for
`y ∈ [0,15]` (low four bits filled into `...11110000`); and for nonnegative
operands the bits are disjoint so or is addition. -/
def hexPairVal (c c2 : Nat) : Int :=
  if unhex c2 < 0 then -1
  else if unhex c < 0 then -16 + unhex c2
  else unhex c * 16 + unhex c2

/-- `isInteger`'s leading-sign strip (lex.go:407-409, also 422-424). -/
def stripSign (s : List Nat) : List Nat :=
  match s with
  | c :: rest => if c = 43 ∨ c = 45 then rest else s
  | [] => s

/-- `isInteger` (lex.go:406-419).  Go ranges over the string's runes; a byte
outside ASCII decodes to a rune that is not a decimal digit, so the per-byte
test is equivalent. -/
def isIntegerB (s : List Nat) : Bool :=
  let t := stripSign s
  !t.isEmpty && t.all (fun c => 48 ≤ c && c ≤ 57)

/-- `isReal` (lex.go:421-439): after the sign, only digits and exactly one
dot. -/
def isRealB (s : List Nat) : Bool :=
  let t := stripSign s
  !t.isEmpty && t.all (fun c => c = 46 || (48 ≤ c && c ≤ 57)) &&
    t.count 46 = 1

/-- `strconv.ParseInt(s, 10, 64)` on a string already known to satisfy
`isInteger`: the signed decimal value, clamped to the int64 range with the
maximum-magnitude value on range error, which is what `readKeyword` then
returns (lex.go:390-395). -/
def parseIntClamp (s : List Nat) : Int :=
  let neg := match s with | c :: _ => decide (c = 45) | [] => false
  let v0 : Int := (stripSign s).foldl (fun a c => a * 10 + ((c : Int) - 48)) 0
  let v := if neg then -v0 else v0
  if 9223372036854775807 < v then 9223372036854775807
  else if v < -9223372036854775808 then -9223372036854775808
  else v

mutual

/-- The whitespace/comment skip loop of `readToken` (lex.go:157-176), entered
with the last byte read in `c`.  `Sum.inl` is an early `return` of a token
(the `io.EOF` error value), `Sum.inr` the first non-space non-comment byte
with the state. -/
def skipLoop : Nat → Buf → Nat → Option ((Obj × Buf) ⊕ (Nat × Buf))
  | 0, _, _ => none
  | fuel+1, b, c =>
    if isSpace c then
      if b.eof then some (.inl (.eofTok, b))
      else
        (match readByte b with
         | (_, true, b1) => some (.inl (.eofTok, b1))
         | (c1, false, b1) => skipLoop fuel b1 c1)
    else if c = 37 then commentLoop fuel b c
    else some (.inr (c, b))

/-- The `%`-comment inner loop (lex.go:166-172): read until CR or LF, then
fall back to the outer loop with that byte. -/
def commentLoop : Nat → Buf → Nat → Option ((Obj × Buf) ⊕ (Nat × Buf))
  | 0, _, _ => none
  | fuel+1, b, c =>
    if c ≠ 13 ∧ c ≠ 10 then
      (match readByte b with
       | (_, true, b1) => some (.inl (.eofTok, b1))
       | (c1, false, b1) => commentLoop fuel b1 c1)
    else skipLoop fuel b c

end

mutual

/-- `readHexString`'s outer loop (lex.go:220-251): skip spaces to the first
byte of a pair; `>` ends the string. -/
def hexLoop : Nat → Buf → List Nat → Option (Obj × Buf)
  | 0, _, _ => none
  | fuel+1, b, tmp =>
    match readByte b with
    | (_, true, b1) => some (.eofTok, b1)
    | (c, false, b1) =>
      if c = 62 then some (.str tmp, b1)
      else if isSpace c then hexLoop fuel b1 tmp
      else hexLoop2 fuel b1 c tmp

/-- Second half of a hex pair (lex.go:234-247): skip spaces to the second
byte; a non-hex digit in either position breaks the loop (after a printed
diagnostic) returning the string truncated so far, else append `byte(x)`
and continue. -/
def hexLoop2 : Nat → Buf → Nat → List Nat → Option (Obj × Buf)
  | 0, _, _, _ => none
  | fuel+1, b, c, tmp =>
    match readByte b with
    | (_, true, b1) => some (.eofTok, b1)
    | (c2, false, b1) =>
      if isSpace c2 then hexLoop2 fuel b1 c tmp
      else
        let x := hexPairVal c c2
        if x < 0 then some (.str tmp, b1)
        else hexLoop fuel b1 (tmp ++ [(x % 256).toNat])

end

/-- `readLiteralString`'s loop (lex.go:265-338), carrying the paren `depth`
and the accumulated bytes `tmp`.  The loop guard `for !b.eof` exits (with the
accumulated string) only when `eof` was set by an escape-`readByte` whose
`('\n', io.EOF)` result fell into the no-error-check `'\n'` line-continuation
case; every other end-of-input path returns the `io.EOF` token.  The
`x > 255` check of the octal case only builds a diagnostic string that the
source discards (`b.errorf` is `fmt.Sprintf`, line 330, result unused), so it
has no observable effect; `byte(x)` is `x % 256`. -/
def readLitLoop : Nat → Buf → Nat → List Nat → Option (Obj × Buf)
  | 0, _, _, _ => none
  | fuel+1, b, depth, tmp =>
    if b.eof then some (.str tmp, b)
    else
      match readByte b with
      | (_, true, b1) => some (.eofTok, b1)
      | (c, false, b1) =>
        if c = 40 then readLitLoop fuel b1 (depth + 1) (tmp ++ [40])
        else if c = 41 then
          if depth - 1 = 0 then some (.str tmp, b1)
          else readLitLoop fuel b1 (depth - 1) (tmp ++ [41])
        else if c = 92 then
          (match readByte b1 with
          | (c2, e2, b2) =>
            if c2 = 110 then readLitLoop fuel b2 depth (tmp ++ [10])
            else if c2 = 114 then readLitLoop fuel b2 depth (tmp ++ [13])
            else if c2 = 98 then readLitLoop fuel b2 depth (tmp ++ [8])
            else if c2 = 116 then readLitLoop fuel b2 depth (tmp ++ [9])
            else if c2 = 102 then readLitLoop fuel b2 depth (tmp ++ [12])
            else if c2 = 40 || c2 = 41 || c2 = 92 then
              readLitLoop fuel b2 depth (tmp ++ [c2])
            else if c2 = 13 then
              (match readByte b2 with
               | (_, true, b3) => some (.eofTok, b3)
               | (d, false, b3) =>
                 readLitLoop fuel (if d ≠ 10 then unreadByte b3 else b3) depth tmp)
            else if c2 = 10 then readLitLoop fuel b2 depth tmp
            else if 48 ≤ c2 ∧ c2 ≤ 55 then
              (match readByte b2 with
               | (_, true, b3) => some (.eofTok, b3)
               | (c3, false, b3) =>
                 if c3 < 48 ∨ 55 < c3 then
                   readLitLoop fuel (unreadByte b3) depth (tmp ++ [(c2 - 48) % 256])
                 else
                   match readByte b3 with
                   | (_, true, b4) => some (.eofTok, b4)
                   | (c4, false, b4) =>
                     if c4 < 48 ∨ 55 < c4 then
                       readLitLoop fuel (unreadByte b4) depth
                         (tmp ++ [((c2 - 48) * 8 + (c3 - 48)) % 256])
                     else
                       readLitLoop fuel b4 depth
                         (tmp ++ [(((c2 - 48) * 8 + (c3 - 48)) * 8 + (c4 - 48)) % 256]))
            else
              if e2 then some (.eofTok, b2)
              else readLitLoop fuel b2 depth (tmp ++ [92, c2]))
        else readLitLoop fuel b1 depth (tmp ++ [c])

/-- `readName`'s loop (lex.go:340-368).  On a read error inside a `#` escape
the source executes `return err` where `err` is the *outer* (nil) error
(lex.go:352-355), i.e. it returns the nil interface as the token — modelled
as `.null`.  A malformed pair (`x < 0`) is only printed and `byte(x)` is
appended anyway. -/
def nameLoop : Nat → Buf → List Nat → Option (Obj × Buf)
  | 0, _, _ => none
  | fuel+1, b, tmp =>
    match readByte b with
    | (_, true, b1) => some (.eofTok, b1)
    | (c, false, b1) =>
      if isDelim c || isSpace c then some (.name tmp, unreadByte b1)
      else if c = 35 then
        (match readByte b1 with
         | (d, ed, b2) =>
           match readByte b2 with
           | (e, ee, b3) =>
             if ed || ee then some (.null, b3)
             else nameLoop fuel b3 (tmp ++ [(hexPairVal d e % 256).toNat]))
      else nameLoop fuel b1 (tmp ++ [c])

/-- `readKeyword`'s accumulation loop (lex.go:372-382): `Sum.inl` is an early
error-token return, `Sum.inr` the accumulated bytes at a delimiter/space
(which is pushed back). -/
def keywordLoop : Nat → Buf → List Nat → Option ((Obj × Buf) ⊕ (List Nat × Buf))
  | 0, _, _ => none
  | fuel+1, b, tmp =>
    match readByte b with
    | (_, true, b1) => some (.inl (.eofTok, b1))
    | (c, false, b1) =>
      if isDelim c || isSpace c then some (.inr (tmp, unreadByte b1))
      else keywordLoop fuel b1 (tmp ++ [c])

/-- `readKeyword` (lex.go:370-404): accumulate, then classify the text as
`true`/`false`/Integer/Real/Keyword. -/
def readKeywordF (fuel : Nat) (b : Buf) : Option (Obj × Buf) :=
  match keywordLoop fuel b [] with
  | none => none
  | some (.inl r) => some r
  | some (.inr (tmp, b1)) =>
    if tmp = strB "true" then some (.bool true, b1)
    else if tmp = strB "false" then some (.bool false, b1)
    else if isIntegerB tmp then some (.int (parseIntClamp tmp), b1)
    else if isRealB tmp then some (.real tmp, b1)
    else some (.kw tmp, b1)

/-- The string built by `b.errorf("unexpected delimiter %#q", rune(c))`
(lex.go:212), returned *as a string token*.  The `%#q` rendering of the rune
is abbreviated to the raw byte; the message's exact bytes are never inspected
by the program. -/
def delimMsg (c : Nat) : List Nat := strB "unexpected delimiter " ++ [c]

/-- `readToken` (lex.go:145-218): pop the pushback stack if nonempty, else
skip whitespace/comments and dispatch on the lead byte.  A `>` not followed
by `>` pushes the second byte back and falls through to the delimiter error
case, which returns the `errorf` message as a (string) token. -/
def readTokenF (fuel : Nat) (b : Buf) : Option (Obj × Buf) :=
  match b.unread with
  | t :: rest => some (t, { b with unread := rest })
  | [] =>
    match readByte b with
    | (_, true, b1) => some (.eofTok, b1)
    | (c0, false, b1) =>
      match skipLoop fuel b1 c0 with
      | none => none
      | some (.inl r) => some r
      | some (.inr (c, b2)) =>
        if c = 60 then
          (match readByte b2 with
           | (_, true, b3) => some (.eofTok, b3)
           | (d, false, b3) =>
             if d = 60 then some (.kw (strB "<<"), b3)
             else hexLoop fuel (unreadByte b3) [])
        else if c = 40 then readLitLoop fuel b2 1 []
        else if c = 91 || c = 93 || c = 123 || c = 125 then some (.kw [c], b2)
        else if c = 47 then nameLoop fuel b2 []
        else if c = 62 then
          (match readByte b2 with
           | (_, true, b3) => some (.eofTok, b3)
           | (d, false, b3) =>
             if d = 62 then some (.kw (strB ">>"), b3)
             else some (.str (delimMsg 62), unreadByte b3))
        else if isDelim c then some (.str (delimMsg c), b2)
        else readKeywordF fuel (unreadByte b2)

/-- Go interface comparison of a token against a keyword literal
(`tok == keyword("...")`, lex.go:503-506, 516, 551, 571). -/
def isKw (t : Obj) (s : List Nat) : Bool :=
  match t with
  | .kw s1 => decide (s1 = s)
  | _ => false

/-- Go `tok == nil` (lex.go:534, 551). -/
def isNullTok (t : Obj) : Bool :=
  match t with
  | .null => true
  | _ => false

/-- Go type test `_, ok := obj.(stream)` (lex.go:513). -/
def isStreamObj (t : Obj) : Bool :=
  match t with
  | .stream _ _ _ => true
  | _ => false

/-- Go map assignment `x[n] = res` (lex.go:563) on the association-list model
of `dict`: overwrite an existing key in place, else append (keys stay unique;
iteration order is never observed by this code). -/
def dictInsert (x : List (List Nat × Obj)) (k : List Nat) (v : Obj) :
    List (List Nat × Obj) :=
  match x with
  | [] => [(k, v)]
  | (k1, v1) :: rest =>
    if k1 = k then (k, v) :: rest else (k1, v1) :: dictInsert rest k v

/-- The tail of `readDict` after the key/value loop (lex.go:566-601): if
`allowStream`, peek one token; on `stream`, consume the line ending — CR with
an optional LF (a non-LF byte after CR is pushed back), or a lone LF — and
build `stream{x, b.objptr, b.readOffset()}`; any other byte after the
keyword returns the `errorf` message *as a string object*; a non-`stream`
token is pushed back and the plain dictionary returned. -/
def dictStreamTail (fuel : Nat) (x : List (List Nat × Obj)) (b : Buf) :
    Option (Obj × Buf) :=
  if !b.allowStream then some (.dict x, b)
  else
    match readTokenF fuel b with
    | none => none
    | some (tok, b1) =>
      if !(isKw tok (strB "stream")) then some (.dict x, unreadTok tok b1)
      else
        match readByte b1 with
        | (c, e, b2) =>
          if c = 13 then
            if e then some (.eofTok, b2)
            else
              (match readByte b2 with
               | (_, true, b3) => some (.eofTok, b3)
               | (d, false, b3) =>
                 let b4 := if d ≠ 10 then unreadByte b3 else b3
                 some (.stream x b4.objptr (readOffset b4), b4))
          else if c = 10 then
            if e then some (.eofTok, b2)
            else some (.stream x b2.objptr (readOffset b2), b2)
          else
            if e then some (.eofTok, b2)
            else some (.str (strB "stream keyword not followed by newline"), b2)

/-- The external `decryptString(key, useAES, objptr, rawBytes)` hook
(lex.go:492; the function itself lives outside this file's scope).  The
reader is parametric in it; every theorem below holds for an arbitrary
hook. -/
def DecryptFn : Type :=
  Option (List Nat) → Bool → Objptr → List Nat → List Nat

/-- The identity hook, used for concrete runs that never reach the hook
(no key is ever configured in them). -/
def decId : DecryptFn := fun _ _ _ s => s

mutual

/-- `readObject` (lex.go:477-528): one token, the keyword dispatch
(`null` / `<<` / `[` / fatal unexpected keyword), the string-decryption
hook, and — under `allowObjptr` — the two-token lookahead that commits an
unsigned-32-bit Integer to an `objptr` (`R`) or `objdef` (`obj ... endobj`),
or pushes the looked-ahead tokens back.  The result is the Go pair
`(object, error)` plus the final state. -/
def readObjectF (dec : DecryptFn) : Nat → Buf → Option (Obj × Option GoError × Buf)
  | 0, _ => none
  | fuel+1, b =>
    match readTokenF fuel b with
    | none => none
    | some (tok, b1) =>
      match tok with
      | .kw s =>
        if s = strB "null" then some (.null, none, b1)
        else if s = strB "<<" then
          (match readDictF dec fuel b1 with
           | none => none
           | some (o, b2) => some (o, none, b2))
        else if s = strB "[" then
          (match readArrayLoop dec fuel b1 [] with
           | none => none
           | some (o, b2) => some (o, none, b2))
        else some (.null, some (.unexpectedKeyword s), b1)
      | _ =>
        let tok1 : Obj :=
          match tok with
          | .str s =>
            if b1.key ≠ none ∧ b1.objptr.id ≠ 0 then
              .str (dec b1.key b1.useAES b1.objptr s)
            else .str s
          | t => t
        if !b1.allowObjptr then some (tok1, none, b1)
        else
          match tok1 with
          | .int t1 =>
            if t1 % 4294967296 = t1 then
              (match readTokenF fuel b1 with
               | none => none
               | some (tok2, b2) =>
                 match tok2 with
                 | .int t2 =>
                   if t2 % 65536 = t2 then
                     (match readTokenF fuel b2 with
                      | none => none
                      | some (tok3, b3) =>
                        if isKw tok3 (strB "R") then
                          some (.objptr ⟨(t1 % 4294967296).toNat, (t2 % 65536).toNat⟩,
                                none, b3)
                        else if isKw tok3 (strB "obj") then
                          let old := b3.objptr
                          let b4 :=
                            { b3 with
                              objptr := ⟨(t1 % 4294967296).toNat, (t2 % 65536).toNat⟩ }
                          match readObjectF dec fuel b4 with
                          | none => none
                          | some (_, some e, b5) => some (.null, some e, b5)
                          | some (obj, none, b5) =>
                            if isStreamObj obj then
                              some (.objdef ⟨(t1 % 4294967296).toNat, (t2 % 65536).toNat⟩ obj,
                                    none, { b5 with objptr := old })
                            else
                              (match readTokenF fuel b5 with
                               | none => none
                               | some (tok4, b6) =>
                                 let b7 :=
                                   if !(isKw tok4 (strB "endobj")) then unreadTok tok4 b6
                                   else b6
                                 some (.objdef ⟨(t1 % 4294967296).toNat, (t2 % 65536).toNat⟩ obj,
                                       none, { b7 with objptr := old }))
                        else some (tok1, none, unreadTok tok2 (unreadTok tok3 b3)))
                   else some (tok1, none, unreadTok tok2 b2)
                 | _ => some (tok1, none, unreadTok tok2 b2))
            else some (tok1, none, b1)
          | _ => some (tok1, none, b1)

/-- `readArray`'s loop (lex.go:530-545) with the accumulated elements `x`:
stop on a nil token or `]`; otherwise push the token back, read an object,
return a nested error *as the array object*, else append and continue. -/
def readArrayLoop (dec : DecryptFn) : Nat → Buf → List Obj → Option (Obj × Buf)
  | 0, _, _ => none
  | fuel+1, b, x =>
    match readTokenF fuel b with
    | none => none
    | some (tok, b1) =>
      if isNullTok tok || isKw tok (strB "]") then some (.arr x, b1)
      else
        match readObjectF dec fuel (unreadTok tok b1) with
        | none => none
        | some (_, some e, b2) => some (.errVal e, b2)
        | some (res, none, b2) => readArrayLoop dec fuel b2 (x ++ [res])

/-- `readDict`'s key/value loop (lex.go:549-564): stop on a nil token or
`>>` (`Sum.inr` with the entries); skip a non-name key (printed diagnostic
only); a value error makes the whole `readDict` return nil immediately
(`Sum.inl Obj.null`, lex.go:561). -/
def readDictLoop (dec : DecryptFn) :
    Nat → Buf → List (List Nat × Obj) → Option ((Obj ⊕ List (List Nat × Obj)) × Buf)
  | 0, _, _ => none
  | fuel+1, b, x =>
    match readTokenF fuel b with
    | none => none
    | some (tok, b1) =>
      if isNullTok tok || isKw tok (strB ">>") then some (.inr x, b1)
      else
        match tok with
        | .name n =>
          (match readObjectF dec fuel b1 with
           | none => none
           | some (_, some _, b2) => some (.inl .null, b2)
           | some (res, none, b2) => readDictLoop dec fuel b2 (dictInsert x n res))
        | _ => readDictLoop dec fuel b1 x

/-- `readDict` (lex.go:547-601): the key/value loop followed by
`dictStreamTail`. -/
def readDictF (dec : DecryptFn) : Nat → Buf → Option (Obj × Buf)
  | 0, _ => none
  | fuel+1, b =>
    match readDictLoop dec fuel b [] with
    | none => none
    | some (.inl o, b1) => some (o, b1)
    | some (.inr x, b1) => dictStreamTail fuel x b1

end

/-- `readArray` (lex.go:530-545): the loop started with no elements. -/
def readArrayF (dec : DecryptFn) (fuel : Nat) (b : Buf) : Option (Obj × Buf) :=
  readArrayLoop dec fuel b []

/-- The second-token test of the lookahead (lex.go:501) as a predicate on a
token: an Integer that survives `int64(uint16(t2)) == t2`. -/
def int16Ok (t : Obj) : Bool :=
  match t with
  | .int j => decide (j % 65536 = j)
  | _ => false

/-- Popping the pushback stack: `readToken` returns the top of `unread`
without consuming fuel or input (lex.go:146-150). -/
theorem readTokenF_pop (fuel : Nat) (b : Buf) (t : Obj) (rest : List Obj)
    (hu : b.unread = t :: rest) :
    readTokenF fuel b = some (t, { b with unread := rest }) := by
  unfold readTokenF
  rw [hu]

/-- `readTokenF_pop` specialised to an explicit buffer literal, as an
unconditional rewrite. -/
theorem readTokenF_mk (fuel : Nat) (d : List Nat) (p : Nat) (t : Obj)
    (r : List Obj) (aE aO aS e : Bool) (k : Option (List Nat)) (uA : Bool)
    (op : Objptr) :
    readTokenF fuel ⟨d, p, t :: r, aE, aO, aS, e, k, uA, op⟩ =
      some (t, ⟨d, p, r, aE, aO, aS, e, k, uA, op⟩) :=
  rfl

/-- C1: if the next three tokens are an Integer `t1` in unsigned-32-bit
range, an Integer `t2` in unsigned-16-bit range, and the Keyword `R`, then
`readObject` with `allowObjptr` returns the indirect reference
`objptr{uint32(t1), uint16(t2)}`; and the concrete input `"1 0 R "` yields
`objptr{1, 0}`.  (On the exact input `"1 0 R"` the third token is not the
Keyword `R` — see the counterexample.) -/
theorem c1_lookahead_reference (dec : DecryptFn) (f : Nat) (b : Buf)
    (t1 t2 : Int) (rest : List Obj)
    (hu : b.unread = .int t1 :: .int t2 :: .kw (strB "R") :: rest)
    (hp : b.allowObjptr = true)
    (h1 : t1 % 4294967296 = t1) (h2 : t2 % 65536 = t2) :
    readObjectF dec (f + 1) b =
      some (.objptr ⟨t1.toNat, t2.toNat⟩, none, { b with unread := rest }) ∧
    readObjectF decId 100 (mkBuf "1 0 R ") =
      some (.objptr ⟨1, 0⟩, none, { mkBuf "1 0 R " with pos := 5 }) := by
  refine ⟨?_, rfl⟩
  cases b with
  | mk bdata bpos bunread baEOF baOp baSt beof bkey baes bop =>
    simp only at hu hp
    subst hu
    simp [readObjectF, readTokenF, isKw, hp, h1, h2]

/-- Closed witness for `c1_lookahead_reference` at `t1 = 1`, `t2 = 0` on a
pushback stack holding the three tokens. -/
theorem c1_witness :
    readObjectF decId 1
        { mkBuf "" with unread := [.int 1, .int 0, .kw (strB "R")] } =
      some (.objptr ⟨1, 0⟩, none, { mkBuf "" with unread := [] }) := by
  have h := c1_lookahead_reference decId 0
    { mkBuf "" with unread := [.int 1, .int 0, .kw (strB "R")] }
    1 0 [] rfl rfl (by decide) (by decide)
  simpa using h.1

/-- C1 counterexample: on the exact input `"1 0 R"` (nothing after the `R`),
the keyword scan of `R` hits end of input and `readToken` returns the
`io.EOF` error value, so the lookahead fails and `readObject` returns the
plain Integer 1 — not an indirect reference. -/
theorem c1_counterexample :
    readObjectF decId 100 (mkBuf "1 0 R") =
      some (.int 1, none,
        { mkBuf "1 0 R" with pos := 5, unread := [.int 0, .eofTok] }) ∧
    Obj.int 1 ≠ Obj.objptr ⟨1, 0⟩ :=
  ⟨rfl, fun h => Obj.noConfusion h⟩

/-- C9: a string token is passed through the decryption hook exactly when a
key is configured and the active object identity has nonzero id; otherwise
the bytes are returned unchanged (lex.go:491-493).  The hook `dec` is
arbitrary. -/
theorem c9_decrypt_condition (dec : DecryptFn) (f : Nat) (b : Buf)
    (s : List Nat) (rest : List Obj) (hu : b.unread = .str s :: rest) :
    readObjectF dec (f + 1) b =
      some (.str (if b.key ≠ none ∧ b.objptr.id ≠ 0 then
                    dec b.key b.useAES b.objptr s
                  else s),
            none, { b with unread := rest }) := by
  cases b with
  | mk bdata bpos bunread baEOF baOp baSt beof bkey baes bop =>
    simp only at hu
    subst hu
    by_cases hk : bkey ≠ none ∧ bop.id ≠ 0 <;>
      cases baOp <;>
        simp [readObjectF, readTokenF, hk]

/-- Closed witness for `c9_decrypt_condition`: with a key and object id 7
the hook output is returned; hypotheses discharged at a concrete state. -/
theorem c9_witness :
    readObjectF (fun _ _ _ s => 0 :: s) 1
        { mkBuf "" with unread := [.str [1, 2]], key := some [9], objptr := ⟨7, 0⟩ } =
      some (.str [0, 1, 2], none,
        { mkBuf "" with unread := [], key := some [9], objptr := ⟨7, 0⟩ }) := by
  have h := c9_decrypt_condition (fun _ _ _ s => 0 :: s) 0
    { mkBuf "" with unread := [.str [1, 2]], key := some [9], objptr := ⟨7, 0⟩ }
    [1, 2] [] rfl
  simpa using h

/-- C2: in the lookahead, a second token failing the unsigned-16-bit Integer
test is pushed back alone (the first Integer is returned as a scalar); a
third token that is neither `R` nor `obj` is pushed back first and then the
second, so the next two `readToken` calls yield the second and third tokens
in their original input order (lex.go:499-527). -/
theorem c2_pushback_order (dec : DecryptFn) (f g g1 g2 : Nat) (bA bB : Buf)
    (t1 t2 : Int) (tok2 tok3 : Obj) (restA restB : List Obj)
    (huA : bA.unread = .int t1 :: tok2 :: restA)
    (hpA : bA.allowObjptr = true)
    (h1 : t1 % 4294967296 = t1)
    (hnot : int16Ok tok2 = false)
    (huB : bB.unread = .int t1 :: .int t2 :: tok3 :: restB)
    (hpB : bB.allowObjptr = true)
    (h2 : t2 % 65536 = t2)
    (hR : isKw tok3 (strB "R") = false)
    (hobj : isKw tok3 (strB "obj") = false) :
    (readObjectF dec (f + 1) bA =
        some (.int t1, none, { bA with unread := tok2 :: restA }) ∧
      readTokenF g { bA with unread := tok2 :: restA } =
        some (tok2, { bA with unread := restA })) ∧
    (readObjectF dec (f + 1) bB =
        some (.int t1, none, { bB with unread := .int t2 :: tok3 :: restB }) ∧
      readTokenF g1 { bB with unread := .int t2 :: tok3 :: restB } =
        some (.int t2, { bB with unread := tok3 :: restB }) ∧
      readTokenF g2 { bB with unread := tok3 :: restB } =
        some (tok3, { bB with unread := restB })) := by
  refine ⟨⟨?_, readTokenF_pop _ _ _ _ rfl⟩,
          ⟨?_, readTokenF_pop _ _ _ _ rfl, readTokenF_pop _ _ _ _ rfl⟩⟩
  · cases bA with
    | mk bdata bpos bunread baEOF baOp baSt beof bkey baes bop =>
      simp only at huA hpA
      subst huA
      cases tok2 with
      | int j =>
        simp only [int16Ok, decide_eq_false_iff_not] at hnot
        simp [readObjectF, readTokenF, hpA, h1, hnot, unreadTok]
      | _ => simp [readObjectF, readTokenF, hpA, h1, unreadTok]
  · cases bB with
    | mk bdata bpos bunread baEOF baOp baSt beof bkey baes bop =>
      simp only at huB hpB
      subst huB
      simp [readObjectF, readTokenF, hpB, h1, h2, hR, hobj, unreadTok]

/-- Closed witness for `c2_pushback_order`: `t1 = 5` with second token
`/X` (a name), and `t1 = 5, t2 = 6` with third token the Keyword `x`. -/
theorem c2_witness :
    readObjectF decId 1 { mkBuf "" with unread := [.int 5, .name [88]] } =
      some (.int 5, none, { mkBuf "" with unread := [.name [88]] }) ∧
    readObjectF decId 1
        { mkBuf "" with unread := [.int 5, .int 6, .kw [120]] } =
      some (.int 5, none, { mkBuf "" with unread := [.int 6, .kw [120]] }) := by
  have h := c2_pushback_order decId 0 0 0 0
    { mkBuf "" with unread := [.int 5, .name [88]] }
    { mkBuf "" with unread := [.int 5, .int 6, .kw [120]] }
    5 6 (.name [88]) (.kw [120]) [] []
    rfl rfl (by decide) rfl rfl rfl (by decide) (by decide) (by decide)
  exact ⟨by simpa using h.1.1, by simpa using h.2.1⟩

/-- C3: a dictionary followed by the Keyword `stream` and a CRLF, lone-CR,
or lone-LF line ending parses to a `stream` carrying the dictionary, the
active object identity, and `readOffset` — the position of the first payload
byte, directly after the line-ending sequence — in every one of the three
cases (lex.go:566-601).  The dictionary part is abstracted by the hypothesis
on `readDictLoop`; `b2` is the state right after the `stream` keyword
token. -/
theorem c3_stream_payload_offset (dec : DecryptFn) (f : Nat) (b b1 b2 : Buf)
    (x : List (List Nat × Obj))
    (hloop : readDictLoop dec f b [] = some (.inr x, b1))
    (hstream : b1.allowStream = true)
    (htok : readTokenF f b1 = some (.kw (strB "stream"), b2)) :
    (b2.pos < b2.data.length → b2.data.getD b2.pos 0 = 13 →
     b2.pos + 1 < b2.data.length → b2.data.getD (b2.pos + 1) 0 = 10 →
      readDictF dec (f + 1) b =
        some (.stream x b2.objptr (b2.pos + 2), { b2 with pos := b2.pos + 2 })) ∧
    (∀ d : Nat, b2.pos < b2.data.length → b2.data.getD b2.pos 0 = 13 →
     b2.pos + 1 < b2.data.length → b2.data.getD (b2.pos + 1) 0 = d → d ≠ 10 →
      readDictF dec (f + 1) b =
        some (.stream x b2.objptr (b2.pos + 1), { b2 with pos := b2.pos + 1 })) ∧
    (b2.pos < b2.data.length → b2.data.getD b2.pos 0 = 10 →
      readDictF dec (f + 1) b =
        some (.stream x b2.objptr (b2.pos + 1), { b2 with pos := b2.pos + 1 })) := by
  refine ⟨fun hlt h13 hlt2 h10 => ?_, fun d hlt h13 hlt2 hd hd10 => ?_,
          fun hlt h10 => ?_⟩
  · rw [List.getD_eq_getElem _ _ hlt] at h13
    rw [List.getD_eq_getElem _ _ hlt2] at h10
    simp [readDictF, hloop, dictStreamTail, hstream, htok, isKw, readByte,
      readOffset, unreadByte, hlt, hlt2, h13, h10]
  · rw [List.getD_eq_getElem _ _ hlt] at h13
    rw [List.getD_eq_getElem _ _ hlt2] at hd
    simp [readDictF, hloop, dictStreamTail, hstream, htok, isKw, readByte,
      readOffset, unreadByte, hlt, hlt2, h13, hd, hd10]
  · rw [List.getD_eq_getElem _ _ hlt] at h10
    simp [readDictF, hloop, dictStreamTail, hstream, htok, isKw, readByte,
      readOffset, unreadByte, hlt, h10]

/-- Closed witness for `c3_stream_payload_offset` on the input
`">>stream\r\nAB"` (empty dictionary): the payload offset is 10, the
position of the byte `A` right after the CRLF. -/
theorem c3_witness :
    readDictF decId 101 (mkBuf ">>stream\r\nAB") =
      some (.stream [] ⟨0, 0⟩ 10, { mkBuf ">>stream\r\nAB" with pos := 10 }) := by
  have h := (c3_stream_payload_offset decId 100 (mkBuf ">>stream\r\nAB")
    { mkBuf ">>stream\r\nAB" with pos := 2 }
    { mkBuf ">>stream\r\nAB" with pos := 8 } [] rfl rfl rfl).1
    (by decide) rfl (by decide) rfl
  simpa using h

/-- C4 (amended): when the byte after the `stream` keyword is neither CR nor
LF, `readDict` does not fail with an error — it returns the `errorf` message
`"stream keyword not followed by newline"` *as a plain string object*
(lex.go:597), and `readObject` passes any `readDict` result out with a nil
error (lex.go:484).  No `stream` value is produced. -/
theorem c4_malformed_stream_start (dec : DecryptFn) (f : Nat) (b b1 b2 : Buf)
    (x : List (List Nat × Obj)) (c : Nat)
    (hloop : readDictLoop dec f b [] = some (.inr x, b1))
    (hstream : b1.allowStream = true)
    (htok : readTokenF f b1 = some (.kw (strB "stream"), b2))
    (hlt : b2.pos < b2.data.length) (hc : b2.data.getD b2.pos 0 = c)
    (h13 : c ≠ 13) (h10 : c ≠ 10) :
    readDictF dec (f + 1) b =
      some (.str (strB "stream keyword not followed by newline"),
            { b2 with pos := b2.pos + 1 }) ∧
    (∀ (b0 bd b5 : Buf) (o : Obj),
      readTokenF f b0 = some (.kw (strB "<<"), bd) →
      readDictF dec f bd = some (o, b5) →
      readObjectF dec (f + 1) b0 = some (o, none, b5)) := by
  constructor
  · rw [List.getD_eq_getElem _ _ hlt] at hc
    simp [readDictF, hloop, dictStreamTail, hstream, htok, isKw, readByte,
      hlt, hc, h13, h10]
  · intro b0 bd b5 o hkw hdict
    have hn1 : strB "<<" ≠ strB "null" := by decide
    simp [readObjectF, hkw, hdict, hn1]

/-- Closed witness for `c4_malformed_stream_start` on `">>stream AB"`: the
byte after the keyword is a space (32). -/
theorem c4_witness :
    readDictF decId 101 (mkBuf ">>stream AB") =
      some (.str (strB "stream keyword not followed by newline"),
            { mkBuf ">>stream AB" with pos := 9 }) := by
  have h := (c4_malformed_stream_start decId 100 (mkBuf ">>stream AB")
    { mkBuf ">>stream AB" with pos := 2 }
    { mkBuf ">>stream AB" with pos := 8 } [] 32 rfl rfl rfl
    (by decide) rfl (by decide) (by decide)).1
  simpa using h

/-- C4 counterexample: on `"<< >>stream x"` the parse does *not* fail — the
top-level `readObject` returns the diagnostic text as a string object with a
nil error, contradicting the claim that a fatal `MalformedStreamStart` error
result is produced and no object value returned. -/
theorem c4_counterexample :
    readObjectF decId 100 (mkBuf "<< >>stream x") =
      some (.str (strB "stream keyword not followed by newline"), none,
            { mkBuf "<< >>stream x" with pos := 12 }) :=
  rfl

/-- C5 (amended): committing to an indirect definition via `obj` saves the
active object identity and replaces it with `(t1, t2)` for the nested
`readObject`; on every success path (non-stream nested value with an
arbitrary following token, or stream nested value) the returned state's
identity is restored to the saved prior value; but when the nested parse
fails with an error the early `return nil, err` (lex.go:510-511) skips the
restore, and `readObject` returns the state exactly as the failed nested
call left it — the identity still the definition's, not the prior one. -/
theorem c5_objptr_save_restore (dec : DecryptFn) (f : Nat) (b : Buf)
    (t1 t2 : Int) (rest : List Obj)
    (hu : b.unread = .int t1 :: .int t2 :: .kw (strB "obj") :: rest)
    (hp : b.allowObjptr = true)
    (h1 : t1 % 4294967296 = t1) (h2 : t2 % 65536 = t2) :
    (∀ (obj : Obj) (b5 : Buf) (tok4 : Obj) (b6 : Buf),
      readObjectF dec f { b with unread := rest, objptr := ⟨t1.toNat, t2.toNat⟩ } =
          some (obj, none, b5) →
      isStreamObj obj = false →
      readTokenF f b5 = some (tok4, b6) →
      readObjectF dec (f + 1) b =
        some (.objdef ⟨t1.toNat, t2.toNat⟩ obj, none,
          { (if !(isKw tok4 (strB "endobj")) then unreadTok tok4 b6 else b6) with
            objptr := b.objptr })) ∧
    (∀ (obj : Obj) (b5 : Buf),
      readObjectF dec f { b with unread := rest, objptr := ⟨t1.toNat, t2.toNat⟩ } =
          some (obj, none, b5) →
      isStreamObj obj = true →
      readObjectF dec (f + 1) b =
        some (.objdef ⟨t1.toNat, t2.toNat⟩ obj, none, { b5 with objptr := b.objptr })) ∧
    (∀ (e : GoError) (obj : Obj) (b5 : Buf),
      readObjectF dec f { b with unread := rest, objptr := ⟨t1.toNat, t2.toNat⟩ } =
          some (obj, some e, b5) →
      readObjectF dec (f + 1) b = some (.null, some e, b5)) := by
  cases b with
  | mk bdata bpos bunread baEOF baOp baSt beof bkey baes bop =>
    simp only at hu hp
    subst hu
    subst hp
    have hR : isKw (Obj.kw (strB "obj")) (strB "R") = false := by decide
    have hO : isKw (Obj.kw (strB "obj")) (strB "obj") = true := by decide
    refine ⟨fun obj b5 tok4 b6 hnested hns htok4 => ?_,
            fun obj b5 hnested hs => ?_,
            fun e obj b5 hnested => ?_⟩
    · try simp at hnested
      simp [readObjectF, readTokenF_mk, h1, h2, hR, hO, hnested, hns, htok4,
        unreadTok]
    · try simp at hnested
      simp [readObjectF, readTokenF_mk, h1, h2, hR, hO, hnested, hs, unreadTok]
    · try simp at hnested
      simp [readObjectF, readTokenF_mk, h1, h2, hR, hO, hnested, unreadTok]

/-- Closed witness for `c5_objptr_save_restore`: with prior identity (9,3),
`"1 0 obj 7 endobj "` restores (9,3) on success, while `"1 0 obj x "`
(nested fatal keyword) returns with identity (1,0) — not restored. -/
theorem c5_witness :
    readObjectF decId 101
        { mkBuf "7 endobj " with
          unread := [.int 1, .int 0, .kw (strB "obj")], objptr := ⟨9, 3⟩ } =
      some (.objdef ⟨1, 0⟩ (.int 7), none,
        { mkBuf "7 endobj " with pos := 8, unread := [], objptr := ⟨9, 3⟩ }) ∧
    readObjectF decId 101
        { mkBuf "x " with
          unread := [.int 1, .int 0, .kw (strB "obj")], objptr := ⟨9, 3⟩ } =
      some (.null, some (.unexpectedKeyword [120]),
        { mkBuf "x " with pos := 1, unread := [], objptr := ⟨1, 0⟩ }) := by
  have hs := (c5_objptr_save_restore decId 100
    { mkBuf "7 endobj " with
      unread := [.int 1, .int 0, .kw (strB "obj")], objptr := ⟨9, 3⟩ }
    1 0 [] rfl rfl (by decide) (by decide)).1
    (.int 7)
    { mkBuf "7 endobj " with
      pos := 8, unread := [.kw (strB "endobj")], objptr := ⟨1, 0⟩ }
    (.kw (strB "endobj"))
    { mkBuf "7 endobj " with pos := 8, unread := [], objptr := ⟨1, 0⟩ }
    (by rfl) (by rfl) (by rfl)
  have he := (c5_objptr_save_restore decId 100
    { mkBuf "x " with
      unread := [.int 1, .int 0, .kw (strB "obj")], objptr := ⟨9, 3⟩ }
    1 0 [] rfl rfl (by decide) (by decide)).2.2
    (.unexpectedKeyword [120]) .null
    { mkBuf "x " with pos := 1, unread := [], objptr := ⟨1, 0⟩ }
    (by rfl)
  exact ⟨by simpa using hs, by simpa using he⟩

/-- C5 counterexample: on `"1 0 obj x "` with prior identity (9,3), the
nested parse fails and `readObject` returns with the active identity still
(1,0): the prior value is not restored on the error path, contradicting the
claim. -/
theorem c5_counterexample :
    readObjectF decId 100 { mkBuf "1 0 obj x " with objptr := ⟨9, 3⟩ } =
      some (.null, some (.unexpectedKeyword [120]),
        { mkBuf "1 0 obj x " with pos := 9, objptr := ⟨1, 0⟩ }) ∧
    Objptr.mk 1 0 ≠ Objptr.mk 9 3 :=
  ⟨rfl, by decide⟩

/-- C6 (amended): a fatal `UnexpectedKeyword` arising at the top level of
`readObject` is returned as an explicit error value (lex.go:488); but one
arising while parsing an array element is returned *as the array's object
value* with a nil error (lex.go:539-541), shown concretely on `"[x]"`. -/
theorem c6_fatal_error_propagation (dec : DecryptFn) (f : Nat) (b b1 : Buf)
    (s : List Nat)
    (htok : readTokenF f b = some (.kw s, b1))
    (h1 : s ≠ strB "null") (h2 : s ≠ strB "<<") (h3 : s ≠ strB "[") :
    readObjectF dec (f + 1) b = some (.null, some (.unexpectedKeyword s), b1) ∧
    readObjectF decId 100 (mkBuf "[x]") =
      some (.errVal (.unexpectedKeyword [120]), none,
            { mkBuf "[x]" with pos := 2 }) := by
  refine ⟨?_, rfl⟩
  simp [readObjectF, htok, h1, h2, h3]

/-- Closed witness for `c6_fatal_error_propagation` at the keyword
`endstream`. -/
theorem c6_witness :
    readObjectF decId 100 (mkBuf "endstream ") =
      some (.null, some (.unexpectedKeyword (strB "endstream")),
            { mkBuf "endstream " with pos := 9 }) := by
  have h := (c6_fatal_error_propagation decId 99 (mkBuf "endstream ")
    { mkBuf "endstream " with pos := 9 } (strB "endstream")
    rfl (by decide) (by decide) (by decide)).1
  simpa using h

/-- C6 counterexample: on `"<</K x>>"` the fatal `UnexpectedKeyword` raised
while parsing the dictionary value makes `readDict` return nil (lex.go:561),
and the top-level `readObject` returns Null with a *nil* error — the fatal
condition is replaced by a Null instead of propagating as an error result,
contradicting the claim. -/
theorem c6_counterexample :
    readObjectF decId 100 (mkBuf "<</K x>>") =
      some (.null, none, { mkBuf "<</K x>>" with pos := 6 }) ∧
    (none : Option GoError) ≠ some (.unexpectedKeyword [120]) :=
  ⟨rfl, by decide⟩

/-- C7: a backslash followed by one to three octal digits inside a literal
string emits exactly one byte, and that byte is the octal value truncated to
its low 8 bits (`byte(x)`, lex.go:316-332) — including values above 255,
whose only flag in the source is a discarded `errorf` string.  Stated for
the three-digit form `(\d1 d2 d3)` (values up to 0o777 = 511) and the
one-digit form `(\d1)`. -/
theorem c7_octal_escape_truncation (f : Nat) (d1 d2 d3 : Nat)
    (h1 : 48 ≤ d1 ∧ d1 ≤ 55) (h2 : 48 ≤ d2 ∧ d2 ≤ 55)
    (h3 : 48 ≤ d3 ∧ d3 ≤ 55) :
    readTokenF (f + 2) (newBufferM [40, 92, d1, d2, d3, 41]) =
      some (.str [(((d1 - 48) * 8 + (d2 - 48)) * 8 + (d3 - 48)) % 256],
            { newBufferM [40, 92, d1, d2, d3, 41] with pos := 6 }) ∧
    readTokenF (f + 2) (newBufferM [40, 92, d1, 41]) =
      some (.str [(d1 - 48) % 256],
            { newBufferM [40, 92, d1, 41] with pos := 4 }) := by
  have hA : ∀ x : Nat, 48 ≤ x → x ≤ 55 →
      x ≠ 110 ∧ x ≠ 114 ∧ x ≠ 98 ∧ x ≠ 116 ∧ x ≠ 102 ∧ x ≠ 40 ∧ x ≠ 41 ∧
      x ≠ 92 ∧ x ≠ 13 ∧ x ≠ 10 ∧ ¬(x < 48 ∨ 55 < x) := by
    intro x hx hy
    omega
  obtain ⟨k1, k2, k3, k4, k5, k6, k7, k8, k9, k10, k11⟩ := hA d1 h1.1 h1.2
  obtain ⟨m1, m2, m3, m4, m5, m6, m7, m8, m9, m10, m11⟩ := hA d2 h2.1 h2.2
  obtain ⟨n1, n2, n3, n4, n5, n6, n7, n8, n9, n10, n11⟩ := hA d3 h3.1 h3.2
  constructor <;>
    simp [readTokenF, skipLoop, readLitLoop, readByte, isSpace, isDelim,
      unreadByte, newBufferM, h1, h2, h3,
      k1, k2, k3, k4, k5, k6, k7, k8, k9, k10, k11,
      m1, m2, m3, m4, m5, m6, m7, m8, m9, m10, m11,
      n1, n2, n3, n4, n5, n6, n7, n8, n9, n10, n11]

/-- Closed witness for `c7_octal_escape_truncation` at `"(\777)"`: the octal
value 511 exceeds 255 and the emitted byte is `511 % 256 = 255`. -/
theorem c7_witness :
    readTokenF 2 (newBufferM [40, 92, 55, 55, 55, 41]) =
      some (.str [255], { newBufferM [40, 92, 55, 55, 55, 41] with pos := 6 }) := by
  have h := (c7_octal_escape_truncation 0 55 55 55
    (by decide) (by decide) (by decide)).1
  simpa using h

/-- C8 (code bug): `readArray` does not terminate at end of input.  The stop
condition `tok == nil || tok == keyword("]")` (lex.go:534) never sees nil:
at end of input `readToken` returns the `io.EOF` error value, which the loop
pushes back, reads again as the element object, and appends — forever.  In
the fueled embedding this shows as `readObjectF` returning `none` (fuel
exhausted) on `"["` followed by end of input, for *every* fuel bound. -/
theorem c8_array_nontermination :
    ∀ (dec : DecryptFn) (fuel : Nat),
      readObjectF dec fuel { mkBuf "[" with allowEOF := true } = none := by
  have aux : ∀ (fuel : Nat) (dec : DecryptFn) (acc : List Obj),
      readArrayLoop dec fuel
        ⟨[91], 1, [], true, true, true, true, none, false, ⟨0, 0⟩⟩ acc = none := by
    intro fuel
    induction fuel using Nat.strong_induction_on with
    | _ fuel ih =>
      match fuel with
      | 0 => intro dec acc; rfl
      | 1 => intro dec acc; rfl
      | (g + 2) =>
        intro dec acc
        have step : readArrayLoop dec (g + 2)
              ⟨[91], 1, [], true, true, true, true, none, false, ⟨0, 0⟩⟩ acc =
            readArrayLoop dec (g + 1)
              ⟨[91], 1, [], true, true, true, true, none, false, ⟨0, 0⟩⟩
              (acc ++ [Obj.eofTok]) := rfl
        rw [step]
        exact ih (g + 1) (by omega) dec (acc ++ [.eofTok])
  intro dec fuel
  match fuel with
  | 0 => rfl
  | 1 => rfl
  | 2 => rfl
  | (g + 3) =>
    have step : readObjectF dec (g + 3) { mkBuf "[" with allowEOF := true } =
        (match readArrayLoop dec (g + 1)
            ⟨[91], 1, [], true, true, true, true, none, false, ⟨0, 0⟩⟩
            [Obj.eofTok] with
         | none => none
         | some (o, b2) => some (o, none, b2)) := rfl
    rw [step, aux (g + 1) dec [Obj.eofTok]]

/-- C10 (amended): when end of input is reached (under `allowEOF`) while
scanning a literal string, the tokenizer does *not* return the accumulated
bytes — the `readByte` error return (lex.go:270-273) makes
`readLiteralString` return the `io.EOF` error value as the token and the
accumulated bytes are discarded (shown here for any string of plain bytes);
the single exception is end of input immediately after an escape backslash,
where the `('\n', io.EOF)` pair falls into the line-continuation case with
no error check, `eof` is set, and the `for !b.eof` guard then exits
returning the accumulated bytes as a string — shown concretely on
`"(ab\"`. -/
theorem c10_literal_string_eof (s : List Nat) (fuel : Nat)
    (hplain : ∀ c ∈ s, c ≠ 40 ∧ c ≠ 41 ∧ c ≠ 92)
    (hfuel : s.length < fuel) :
    (readTokenF fuel { newBufferM (40 :: s) with allowEOF := true }).map
        Prod.fst = some Obj.eofTok ∧
    readTokenF 100 (mkBufEOF "(ab\\") =
      some (.str [97, 98], { mkBufEOF "(ab\\" with pos := 4, eof := true }) := by
  have aux : ∀ (s1 : List Nat) (fl : Nat) (b : Buf) (depth : Nat)
      (tmp pre : List Nat),
      b.allowEOF = true → b.eof = false →
      b.data = pre ++ s1 → b.pos = pre.length →
      (∀ c ∈ s1, c ≠ 40 ∧ c ≠ 41 ∧ c ≠ 92) →
      s1.length < fl →
      (readLitLoop fl b depth tmp).map Prod.fst = some Obj.eofTok := by
    intro s1
    induction s1 with
    | nil =>
      intro fl b depth tmp pre hE he hd hp _ hf
      match fl, hf with
      | (fl + 1), _ =>
        have hnlt : ¬ b.pos < b.data.length := by
          simp [hd, hp]
        simp [readLitLoop, readByte, he, hnlt, hE]
    | cons c s2 ih =>
      intro fl b depth tmp pre hE he hd hp hplain1 hf
      match fl, hf with
      | (fl + 1), hf2 =>
        have hlt : b.pos < b.data.length := by
          simp [hd, hp]
        have hget : b.data.getD b.pos 0 = c := by
          rw [hd, hp, List.getD_eq_getElem?_getD, List.getElem?_append_right
            (Nat.le_refl pre.length)]
          simp
        rw [List.getD_eq_getElem _ _ hlt] at hget
        obtain ⟨hc1, hc2, hc3⟩ := hplain1 c (List.mem_cons_self c s2)
        have step : readLitLoop (fl + 1) b depth tmp =
            readLitLoop fl { b with pos := b.pos + 1 } depth (tmp ++ [c]) := by
          simp [readLitLoop, readByte, he, hlt, hget, hc1, hc2, hc3]
        rw [step]
        exact ih fl { b with pos := b.pos + 1 } depth (tmp ++ [c]) (pre ++ [c])
          (by simp [hE]) (by simp [he])
          (by simp [hd])
          (by simp [hp])
          (fun c1 hc => hplain1 c1 (List.mem_cons_of_mem c hc))
          (by simp only [List.length_cons] at hf2; omega)
  refine ⟨?_, rfl⟩
  match fuel, hfuel with
  | (fl + 1), hf2 =>
    have hred : readTokenF (fl + 1) { newBufferM (40 :: s) with allowEOF := true } =
        readLitLoop (fl + 1)
          { newBufferM (40 :: s) with allowEOF := true, pos := 1 } 1 [] := by
      simp [readTokenF, skipLoop, readByte, isSpace, isDelim, newBufferM]
    rw [hred]
    exact aux s (fl + 1)
      { newBufferM (40 :: s) with allowEOF := true, pos := 1 } 1 [] [40]
      rfl rfl (by simp [newBufferM]) rfl hplain (by omega)

/-- Closed witness for `c10_literal_string_eof` at `s = "ab"`. -/
theorem c10_witness :
    (readTokenF 100 { newBufferM (40 :: [97, 98]) with allowEOF := true }).map
        Prod.fst = some Obj.eofTok := by
  exact (c10_literal_string_eof [97, 98] 100 (by decide) (by decide)).1

/-- C10 counterexample: on `"(ab"` followed by end of input (with
`allowEOF`), the tokenizer returns the `io.EOF` error value — not a
StringLiteral with the accumulated bytes `"ab"` — contradicting the claim. -/
theorem c10_counterexample :
    readTokenF 100 (mkBufEOF "(ab") =
      some (.eofTok, { mkBufEOF "(ab" with pos := 3, eof := true }) ∧
    Obj.eofTok ≠ Obj.str [97, 98] :=
  ⟨rfl, fun h => Obj.noConfusion h⟩

end PdfLex
